import Mathlib

/-!
Shallow embedding of the WhatsApp PDF-chatbot webhook (src/index.js) and
proofs of the specified properties of its core: the text normalizer
(`processContent`), the retrieval-augmented answering pipeline
(`queryPDF` and its prompt template), and the Dialogflow intent handlers
that implement the conversation escalation protocol.

Strings are modelled at the level of their character lists; JavaScript
regular-expression character classes are modelled as decidable predicates
on `Char`.
-/

/-- Characters matched by the JavaScript regex class `\s` (and removed from
both ends by `String.prototype.trim`): ASCII whitespace, NBSP, and the
Unicode space separators, line separators, and BOM. -/
def isJsWs (c : Char) : Bool :=
  c = ' ' || c = '\t' || c = '\n' || c = '\r' || c.toNat = 0xb || c.toNat = 0xc ||
  c.toNat = 0xa0 || c.toNat = 0x1680 || (0x2000 ≤ c.toNat && c.toNat ≤ 0x200a) ||
  c.toNat = 0x2028 || c.toNat = 0x2029 || c.toNat = 0x202f || c.toNat = 0x205f ||
  c.toNat = 0x3000 || c.toNat = 0xfeff

/-- Characters matched by the JavaScript regex class `\w`: ASCII letters,
digits, and underscore. -/
def isWordChar (c : Char) : Bool :=
  c.isAlphanum || c = '_'

/-- Characters kept by the final replace of `processContent`
(src/index.js line 47): the complement of `[^\w\s.,!?()-]`. -/
def isAllowedChar (c : Char) : Bool :=
  isWordChar c || isJsWs c || c = '.' || c = ',' || c = '!' || c = '?' ||
  c = '(' || c = ')' || c = '-'

/-- Removal of trailing JS whitespace, i.e. the right half of
`String.prototype.trim`. -/
def rdropWs (l : List Char) : List Char :=
  (l.reverse.dropWhile isJsWs).reverse

/-- `String.prototype.trim` (src/index.js line 45): drop leading and
trailing JS whitespace. -/
def jsTrim (l : List Char) : List Char :=
  rdropWs (l.dropWhile isJsWs)

/-- Worker for the global replace `.replace(/\s+/g, ' ')`
(src/index.js line 46). The boolean records whether the previous character
belonged to a whitespace run whose single replacement `' '` has already
been emitted. -/
def collapseWsAux : Bool → List Char → List Char
  | _, [] => []
  | prevWs, c :: rest =>
    if isJsWs c then
      if prevWs then collapseWsAux true rest
      else ' ' :: collapseWsAux true rest
    else c :: collapseWsAux false rest

/-- The global replace `.replace(/\s+/g, ' ')` (src/index.js line 46):
each maximal run of JS whitespace becomes a single space. -/
def collapseWs (l : List Char) : List Char :=
  collapseWsAux false l

/-- The global replace `.replace(/[^\w\s.,!?()-]/g, '')`
(src/index.js line 47): remove every disallowed character. -/
def removeDisallowed (l : List Char) : List Char :=
  l.filter isAllowedChar

/-- The chain of string operations applied by `processContent` to a
non-empty string (src/index.js lines 44-47): trim, collapse whitespace
runs, remove disallowed characters. -/
def processChars (l : List Char) : List Char :=
  removeDisallowed (collapseWs (jsTrim l))

/-- A JavaScript value reaching `processContent`: a string, or any
non-string value (undefined, null, a number, ...). -/
inductive JsValue where
  | str : String → JsValue
  | nonString : JsValue

/-- The helper `processContent` (src/index.js lines 39-48): a non-string
argument and the empty string (both falsy, caught by the
`!content || typeof content !== 'string'` guard) yield the empty string;
otherwise the trim / collapse-whitespace / remove-disallowed chain runs. -/
def processContent : JsValue → String
  | .nonString => ""
  | .str s => if s = "" then "" else ⟨processChars s.data⟩

/-- Decides whether `pat` occurs as a contiguous substring of the second
list, as JavaScript `String.prototype.includes` does. -/
def containsSub (pat : List Char) : List Char → Bool
  | [] => pat.isEmpty
  | c :: rest => pat.isPrefixOf (c :: rest) || containsSub pat rest

/-- JavaScript `s.includes(sub)` on the character lists of the two
strings. -/
def strIncludes (s sub : String) : Bool :=
  containsSub sub.data s.data

/-- The substring tested by `handleFallbackIntent` to detect a grounding
failure (src/index.js line 275). -/
def insufficientInfoMarker : String :=
  "I do not have enough information"

/-- The fixed refusal sentence the prompt instructs the model to emit when
the context is insufficient (src/index.js line 147). -/
def refusalSentence : String :=
  "I do not have enough information to answer this question."

/-- The fixed follow-up suggestion paired with the refusal sentence
(src/index.js line 148). -/
def suggestionSentence : String :=
  "Please ask a different question related to the available content."

/-- Segment of the prompt template before the interpolated context
(src/index.js lines 132-134). -/
def promptPart1 : String :=
  "\n            Context Information:\n                "

/-- Segment of the prompt template between the interpolated context and the
interpolated query (src/index.js lines 134-136). -/
def promptPart2 : String :=
  "\n                \n            Query: "

/-- Segment of the prompt template between the interpolated query and the
quoted refusal sentence (src/index.js lines 136-147). -/
def promptPart3 : String :=
  "\n            \n            Instructions:\n            1. Analyze the provided context carefully.\n            2. Generate a concise, precise, and informative answer directly based on the context.\n            3. Keep the response:\n               - Strictly limited to information from the provided context.\n               - Clear, easily understandable, and directly related to the query.\n               \n            Response Guidelines:\n            - If the context does not contain sufficient information to answer the query:\n               * Respond with: \""

/-- Segment of the prompt template between the quoted refusal sentence and
the quoted suggestion sentence (src/index.js lines 147-148). -/
def promptPart4 : String :=
  "\"\n               * Suggest: \""

/-- Segment of the prompt template after the quoted suggestion sentence
(src/index.js lines 148-163). -/
def promptPart5 : String :=
  "\"\n               \n            - If the query involves legal issues or deportation-related questions:\n               * Acknowledge the issue and suggest seeking legal help if the context doesn\x27t contain detailed information.\n               * Use a response like: \"It seems like you need legal assistance regarding deportation. Please consult a lawyer specializing in deportation matters.\"\n               \n            - If the query is asking about the chatbot itself, such as \"What is this chatbot about?\" or \"What can this chatbot do?\", and the context contains information about the chatbot\x27s purpose or functionality, provide a clear description of the chatbot\x27s role or capabilities based on the context.\n        \n            Constraints:\n            - Do not reference the source document.\n            - Do not disclose any details about the document\x27s origin.\n            - Provide only the most relevant information.\n              \n            Response Format:\n            [Concise Answer]\n        "

/-- The context block of the prompt (src/index.js line 130): each retrieved
document's page content is normalized by `processContent` and the results
are joined with a blank-line separator, in retrieval order. -/
def contextBlock (relevantDocs : List String) : String :=
  String.intercalate "\n\n" (relevantDocs.map (fun doc => processContent (.str doc)))

/-- The assembled prompt template of `queryPDF` (src/index.js lines
132-163), with the context block and the processed query interpolated. -/
def buildPrompt (context processedQuery : String) : String :=
  promptPart1 ++ context ++ promptPart2 ++ processedQuery ++ promptPart3 ++
    refusalSentence ++ promptPart4 ++ suggestionSentence ++ promptPart5

/-- Errors thrown out of `PDFChatbot.queryPDF`: the not-loaded guard of
src/index.js lines 120-122, or a rethrown collaborator failure
(src/index.js lines 171-174). -/
inductive QueryError where
  | notLoaded : QueryError
  | collaborator : QueryError
deriving DecidableEq

/-- `PDFChatbot.queryPDF` (src/index.js lines 119-175). The in-memory
vector store is `none` until `loadAndProcessPDF` completes; the retriever
and the completion collaborator are external, so the retrieved documents
are an input and the completion call is an input function from the prompt
to its outcome. On success the answer is the normalized completion
output. -/
def queryPDF (vectorStore : Option Unit) (relevantDocs : List String)
    (llm : String → Except QueryError String) (query : String) :
    Except QueryError String :=
  match vectorStore with
  | none => .error .notLoaded
  | some _ =>
    match llm (buildPrompt (contextBlock relevantDocs) (processContent (.str query))) with
    | .error _ => .error .collaborator
    | .ok content => .ok (processContent (.str content))

/-- A Dialogflow output context as set by `agent.setContext`
(src/index.js lines 280-286): its name, its lifespan in turns, and the
`original_query` parameter when present. -/
structure DialogflowContext where
  name : String
  lifespan : Nat
  original_query : Option String
deriving DecidableEq

/-- The reply and the output contexts produced by one intent handler
invocation (`agent.add` and `agent.setContext`). -/
structure AgentTurnOutput where
  reply : String
  setContexts : List DialogflowContext
deriving DecidableEq

/-- The record handed to `SheetDBService.addUnresolvedQuery`
(src/index.js lines 303-308). -/
structure EscalationRecord where
  name : String
  email : String
  query : String
  timestamp : String
deriving DecidableEq

/-- A failure of the SheetDB storage collaborator. -/
inductive SheetDBError where
  | clientError : SheetDBError
deriving DecidableEq

/-- `SheetDBService.addUnresolvedQuery` (src/index.js lines 56-65): the
external client's `create(data)` outcome is an input; a success is
returned and a failure is logged and rethrown to the caller. -/
def addUnresolvedQuery (data : EscalationRecord)
    (clientOutcome : Except SheetDBError Unit) : Except SheetDBError Unit :=
  match clientOutcome with
  | .ok r => .ok r
  | .error e => .error e

/-- Fixed greeting of `handleWelcomeIntent` (src/index.js line 268). -/
def welcomeMessage : String :=
  "Hi there! How can I assist you today?"

/-- Fixed contact-request message emitted when the answer contains the
insufficient-information marker (src/index.js line 277). -/
def contactRequestMessage : String :=
  "I couldn\x27t find an answer to your question. Could you please provide your email? We\x27ll get back to you with more information."

/-- Fixed degraded reply when the PDF query throws
(src/index.js line 292). -/
def queryErrorMessage : String :=
  "Sorry, I couldn\x27t process your request right now."

/-- Fixed acknowledgement after a successful SheetDB save
(src/index.js line 310). -/
def ackMessage : String :=
  "Thank you, We\x27ve recorded your query and will follow up via email."

/-- Fixed apology after a failed SheetDB save (src/index.js line 313). -/
def saveErrorMessage : String :=
  "Sorry, there was an issue saving your information. Please try again later."

/-- `handleWelcomeIntent` (src/index.js lines 267-269): a fixed greeting,
no contexts touched. -/
def handleWelcomeIntent : AgentTurnOutput :=
  { reply := welcomeMessage, setContexts := [] }

/-- `handleFallbackIntent` (src/index.js lines 271-294). The outcome of
`queryPDF` is an input: on success, if the answer contains the
insufficient-information marker, the fixed contact-request message is
emitted and the `awaiting_user_info` context is stored with lifespan 2 and
the turn's query; otherwise the answer itself is emitted and no context is
stored. A thrown query error is caught and replaced by the fixed degraded
reply. -/
def handleFallbackIntent (userQuery : String)
    (queryOutcome : Except QueryError String) : AgentTurnOutput :=
  match queryOutcome with
  | .ok answer =>
    if strIncludes answer insufficientInfoMarker then
      { reply := contactRequestMessage,
        setContexts := [{ name := "awaiting_user_info", lifespan := 2,
                          original_query := some userQuery }] }
    else
      { reply := answer, setContexts := [] }
  | .error _ => { reply := queryErrorMessage, setContexts := [] }

/-- `agent.getContext(name)`: look up an active context by name. -/
def getContext (contexts : List DialogflowContext) (nm : String) :
    Option DialogflowContext :=
  contexts.find? (fun c => c.name = nm)

/-- The expression `agent.getContext('awaiting_user_info')?.parameters?.original_query || 'N/A'`
(src/index.js line 299): a missing context, a missing parameter, and the
falsy empty string all fall back to the literal `"N/A"`. -/
def storedOriginalQuery (contexts : List DialogflowContext) : String :=
  match getContext contexts "awaiting_user_info" with
  | none => "N/A"
  | some c =>
    match c.original_query with
    | none => "N/A"
    | some q => if q = "" then "N/A" else q

/-- `handleUserInfoIntent` (src/index.js lines 296-315). The current
timestamp and the SheetDB client outcome are inputs. The escalation record
is built from the turn's `name` and `email` parameters, the stored
original query, and the timestamp, then handed to
`addUnresolvedQuery`; the reply is the fixed acknowledgement on success
and the fixed apology on a caught failure. No context is set. The record
built is returned alongside the turn output. -/
def handleUserInfoIntent (nm email : String)
    (contexts : List DialogflowContext) (timestamp : String)
    (clientOutcome : Except SheetDBError Unit) :
    AgentTurnOutput × EscalationRecord :=
  let record : EscalationRecord :=
    { name := nm, email := email, query := storedOriginalQuery contexts,
      timestamp := timestamp }
  match addUnresolvedQuery record clientOutcome with
  | .ok _ => ({ reply := ackMessage, setContexts := [] }, record)
  | .error _ => ({ reply := saveErrorMessage, setContexts := [] }, record)

/-- The abstract per-session state of the conversation state machine. -/
inductive ConvState where
  | answering : ConvState
  | awaitingContactInfo (originalQuery : String) (remainingTurns : Nat) : ConvState
deriving DecidableEq

/-- Modelled from the spec: the correspondence between the machine state of
section 4.7 and the Dialogflow contexts active for the session. The
Dialogflow session collaborator that stores contexts between turns is
outside src/; per the spec a session is in `AwaitingContactInfo` exactly
when an `awaiting_user_info` context is active, carrying the original
query and the remaining turns. -/
def contextsOfState : ConvState → List DialogflowContext
  | .answering => []
  | .awaitingContactInfo q n =>
    [{ name := "awaiting_user_info", lifespan := n, original_query := some q }]

/-- Modelled from the spec: the state a session is left in by a turn,
read off the contexts the handler set. The Dialogflow session collaborator
(outside src/) persists a context a handler sets and drops the consumed
context when none is set, so a turn that sets an `awaiting_user_info`
context leaves the session in `AwaitingContactInfo` and any other turn
leaves it in `Answering`. -/
def stateAfterTurn (out : AgentTurnOutput) : ConvState :=
  match getContext out.setContexts "awaiting_user_info" with
  | some c =>
    .awaitingContactInfo
      (match c.original_query with | some q => q | none => "") c.lifespan
  | none => .answering

/-- One contact-info-collection turn of the conversation state machine:
`handleUserInfoIntent` runs against the contexts of the current state, and
the next state is read off the contexts it set. -/
def userInfoTurn (state : ConvState) (nm email timestamp : String)
    (clientOutcome : Except SheetDBError Unit) :
    ConvState × AgentTurnOutput × EscalationRecord :=
  let (out, record) :=
    handleUserInfoIntent nm email (contextsOfState state) timestamp clientOutcome
  (stateAfterTurn out, out, record)

/-- The response of the `/dialogflow-webhook` route as far as the
readiness gate is concerned (src/index.js lines 258-260). -/
inductive WebhookResponse where
  | serviceUnavailable : WebhookResponse
  | handled (out : AgentTurnOutput) : WebhookResponse
deriving DecidableEq

/-- The readiness gate of the `/dialogflow-webhook` route
(src/index.js lines 258-260): until both the chatbot and the SheetDB
service are initialized the route answers 503 without dispatching any
intent handler; afterwards the turn is dispatched and handled. -/
def dialogflowWebhookGate (pdfChatbot : Option Unit) (sheetdb : Option Unit)
    (handle : Unit → AgentTurnOutput) : WebhookResponse :=
  match pdfChatbot, sheetdb with
  | some _, some _ => .handled (handle ())
  | _, _ => .serviceUnavailable

/-- A chunk of the source document, per the data model: a stable 0-based
id, its text, and its offset in the source. -/
structure Chunk where
  id : Nat
  text : String
  sourceOffset : Nat
deriving DecidableEq

/-- Modelled from the spec: the ordering used by the Vector Index query of
section 4.3 (the similarity search itself is implemented by the external
MemoryVectorStore library, not in src/). A scored chunk precedes another
when its similarity score is higher, ties broken by ascending chunk id.
Scores live in an arbitrary linear order. -/
def simLe {σ : Type} [LinearOrder σ] (a b : Chunk × σ) : Prop :=
  b.2 < a.2 ∨ (a.2 = b.2 ∧ a.1.id ≤ b.1.id)

/-- The strict version of `simLe`: strictly higher score, or equal score
and strictly smaller chunk id. -/
def simLt {σ : Type} [LinearOrder σ] (a b : Chunk × σ) : Prop :=
  b.2 < a.2 ∨ (a.2 = b.2 ∧ a.1.id < b.1.id)

instance {σ : Type} [LinearOrder σ] : DecidableRel (@simLe σ _) := fun a b => by
  unfold simLe
  exact inferInstance

instance {σ : Type} [LinearOrder σ] : IsTotal (Chunk × σ) simLe where
  total a b := by
    rcases lt_trichotomy a.2 b.2 with h | h | h
    · exact Or.inr (Or.inl h)
    · rcases Nat.le_total a.1.id b.1.id with h' | h'
      · exact Or.inl (Or.inr ⟨h, h'⟩)
      · exact Or.inr (Or.inr ⟨h.symm, h'⟩)
    · exact Or.inl (Or.inl h)

instance {σ : Type} [LinearOrder σ] : IsTrans (Chunk × σ) simLe where
  trans a b c hab hbc := by
    rcases hab with hab | ⟨hab, hab'⟩
    · rcases hbc with hbc | ⟨hbc, _⟩
      · exact Or.inl (lt_trans hbc hab)
      · exact Or.inl (hbc ▸ hab)
    · rcases hbc with hbc | ⟨hbc, hbc'⟩
      · exact Or.inl (hab ▸ hbc)
      · exact Or.inr ⟨hab.trans hbc, le_trans hab' hbc'⟩

/-- Modelled from the spec: the Vector Index query of section 4.3
(implemented by the external MemoryVectorStore library, not in src/).
The index pairs each chunk with its similarity score against the query
embedding; the query returns the k highest-scoring chunks, ties broken by
ascending chunk id, in descending order. -/
def vquery {σ : Type} [LinearOrder σ] (index : List (Chunk × σ)) (k : Nat) :
    List (Chunk × σ) :=
  (List.insertionSort simLe index).take k

/-- The number of documents requested by `vectorStore.asRetriever(4)`
(src/index.js line 127): k defaults to 4. -/
def defaultK : Nat := 4

/-- The retrieval performed by `queryPDF` (src/index.js lines 127-128):
the Vector Index query with the default k. -/
def vqueryDefault {σ : Type} [LinearOrder σ] (index : List (Chunk × σ)) :
    List (Chunk × σ) :=
  vquery index defaultK

/-- A character list is in the canonical form that `processChars`
produces when run twice: only allowed characters, every whitespace
character is a plain space, no two adjacent whitespace characters, and no
leading or trailing whitespace. -/
def canonicalChars (l : List Char) : Prop :=
  (∀ c ∈ l, isAllowedChar c = true) ∧
  (∀ c ∈ l, isJsWs c = true → c = ' ') ∧
  List.Chain' (fun a b => ¬(isJsWs a = true ∧ isJsWs b = true)) l ∧
  (∀ c, l.head? = some c → isJsWs c = false) ∧
  (∀ c, l.getLast? = some c → isJsWs c = false)

theorem mem_collapseWsAux {c : Char} :
    ∀ (l : List Char) (b : Bool), c ∈ collapseWsAux b l → c ∈ l ∨ c = ' ' := by
  intro l
  induction l with
  | nil => intro b h; simp [collapseWsAux] at h
  | cons d rest ih =>
    intro b h
    by_cases hd : isJsWs d = true
    · cases b with
      | true =>
        simp only [collapseWsAux, hd, if_true] at h
        rcases ih true h with h' | h'
        · exact Or.inl (List.mem_cons_of_mem d h')
        · exact Or.inr h'
      | false =>
        simp only [collapseWsAux, hd, if_true] at h
        rcases List.mem_cons.mp h with h' | h'
        · exact Or.inr h'
        · rcases ih true h' with h'' | h''
          · exact Or.inl (List.mem_cons_of_mem d h'')
          · exact Or.inr h''
    · simp only [collapseWsAux, hd] at h
      rcases List.mem_cons.mp h with h' | h'
      · exact Or.inl (h' ▸ List.mem_cons_self d rest)
      · rcases ih false h' with h'' | h''
        · exact Or.inl (List.mem_cons_of_mem d h'')
        · exact Or.inr h''

theorem ws_mem_collapseWsAux {c : Char} :
    ∀ (l : List Char) (b : Bool),
      c ∈ collapseWsAux b l → isJsWs c = true → c = ' ' := by
  intro l
  induction l with
  | nil => intro b h; simp [collapseWsAux] at h
  | cons d rest ih =>
    intro b h hws
    by_cases hd : isJsWs d = true
    · cases b with
      | true =>
        simp only [collapseWsAux, hd, if_true] at h
        exact ih true h hws
      | false =>
        simp only [collapseWsAux, hd, if_true] at h
        rcases List.mem_cons.mp h with h' | h'
        · exact h'
        · exact ih true h' hws
    · simp only [collapseWsAux, hd] at h
      rcases List.mem_cons.mp h with h' | h'
      · rw [h'] at hws; exact absurd hws (by simp [hd])
      · exact ih false h' hws

theorem head_collapseWsAux_true {c : Char} :
    ∀ l : List Char, (collapseWsAux true l).head? = some c → isJsWs c = false := by
  intro l
  induction l with
  | nil => intro h; simp [collapseWsAux] at h
  | cons d rest ih =>
    intro h
    by_cases hd : isJsWs d = true
    · simp only [collapseWsAux, hd, if_true] at h
      exact ih h
    · have hrw : collapseWsAux true (d :: rest) = d :: collapseWsAux false rest := by
        simp [collapseWsAux, hd]
      rw [hrw, List.head?_cons, Option.some.injEq] at h
      rw [← h]
      simpa using hd

theorem chain_collapseWsAux :
    ∀ (l : List Char) (b : Bool),
      List.Chain' (fun a b => ¬(isJsWs a = true ∧ isJsWs b = true))
        (collapseWsAux b l) := by
  intro l
  induction l with
  | nil => intro b; cases b <;> exact List.chain'_nil
  | cons d rest ih =>
    intro b
    by_cases hd : isJsWs d = true
    · cases b with
      | true => simpa only [collapseWsAux, hd, if_true] using ih true
      | false =>
        have hrw : collapseWsAux false (d :: rest) = ' ' :: collapseWsAux true rest := by
          simp [collapseWsAux, hd]
        rw [hrw, List.chain'_cons']
        refine ⟨?_, ih true⟩
        intro y hy hcontra
        have := head_collapseWsAux_true rest (Option.mem_def.mp hy)
        rw [this] at hcontra
        exact Bool.false_ne_true hcontra.2
    · have hrw : collapseWsAux b (d :: rest) = d :: collapseWsAux false rest := by
        cases b <;> simp [collapseWsAux, hd]
      rw [hrw, List.chain'_cons']
      refine ⟨?_, ih false⟩
      intro y hy hcontra
      exact hd hcontra.1

theorem getLast_collapseWsAux {c₀ : Char} :
    ∀ (l : List Char) (b : Bool), l.getLast? = some c₀ → isJsWs c₀ = false →
      ∃ c₁, (collapseWsAux b l).getLast? = some c₁ ∧ isJsWs c₁ = false := by
  intro l
  induction l with
  | nil => intro b h _; simp at h
  | cons d rest ih =>
    intro b hlast hws
    cases rest with
    | nil =>
      rw [List.getLast?_singleton, Option.some.injEq] at hlast
      have hdws : isJsWs d = false := by rw [hlast]; exact hws
      refine ⟨d, ?_, hdws⟩
      have hrw : collapseWsAux b [d] = [d] := by
        cases b <;> simp [collapseWsAux, hdws]
      rw [hrw, List.getLast?_singleton]
    | cons e rest' =>
      rw [List.getLast?_cons_cons] at hlast
      by_cases hd : isJsWs d = true
      · cases b with
        | true =>
          have hrw : collapseWsAux true (d :: e :: rest') =
              collapseWsAux true (e :: rest') := by
            simp [collapseWsAux, hd]
          rw [hrw]
          exact ih true hlast hws
        | false =>
          have hrw : collapseWsAux false (d :: e :: rest') =
              ' ' :: collapseWsAux true (e :: rest') := by
            simp [collapseWsAux, hd]
          rw [hrw]
          obtain ⟨c₁, hc₁, hc₁ws⟩ := ih true hlast hws
          refine ⟨c₁, ?_, hc₁ws⟩
          cases htail : collapseWsAux true (e :: rest') with
          | nil => rw [htail] at hc₁; simp at hc₁
          | cons f fs =>
            rw [htail] at hc₁
            rw [List.getLast?_cons_cons]
            exact hc₁
      · have hrw : collapseWsAux b (d :: e :: rest') =
            d :: collapseWsAux false (e :: rest') := by
          cases b <;> simp [collapseWsAux, hd]
        rw [hrw]
        obtain ⟨c₁, hc₁, hc₁ws⟩ := ih false hlast hws
        refine ⟨c₁, ?_, hc₁ws⟩
        cases htail : collapseWsAux false (e :: rest') with
        | nil => rw [htail] at hc₁; simp at hc₁
        | cons f fs =>
          rw [htail] at hc₁
          rw [List.getLast?_cons_cons]
          exact hc₁

theorem head_collapseWs {l : List Char}
    (h : ∀ c, l.head? = some c → isJsWs c = false) :
    ∀ c, (collapseWs l).head? = some c → isJsWs c = false := by
  intro c hc
  cases l with
  | nil => simp [collapseWs, collapseWsAux] at hc
  | cons d rest =>
    have hd : isJsWs d = false := h d List.head?_cons
    have hrw : collapseWs (d :: rest) = d :: collapseWsAux false rest := by
      simp [collapseWs, collapseWsAux, hd]
    rw [hrw, List.head?_cons, Option.some.injEq] at hc
    rw [← hc]
    exact hd

theorem collapseWsAux_fix :
    ∀ l : List Char, (∀ c ∈ l, isJsWs c = true → c = ' ') →
      List.Chain' (fun a b => ¬(isJsWs a = true ∧ isJsWs b = true)) l →
      (collapseWsAux false l = l ∧
        ((∀ c, l.head? = some c → isJsWs c = false) → collapseWsAux true l = l)) := by
  intro l
  induction l with
  | nil => intro _ _; constructor <;> simp [collapseWsAux]
  | cons d rest ih =>
    intro hnorm hchain
    have hrest := ih (fun c hc => hnorm c (List.mem_cons_of_mem d hc))
      (List.chain'_cons'.mp hchain).2
    constructor
    · by_cases hd : isJsWs d = true
      · have hspace : d = ' ' := hnorm d (List.mem_cons_self d rest) hd
        have hrw : collapseWsAux false (d :: rest) = ' ' :: collapseWsAux true rest := by
          simp [collapseWsAux, hd]
        rw [hrw, ← hspace]
        have hhead : ∀ c, rest.head? = some c → isJsWs c = false := by
          intro c hc
          have := (List.chain'_cons'.mp hchain).1 c (Option.mem_def.mpr hc)
          by_contra hcontra
          exact this ⟨hd, Bool.of_not_eq_false hcontra⟩
        rw [hrest.2 hhead]
      · have hrw : collapseWsAux false (d :: rest) = d :: collapseWsAux false rest := by
          simp [collapseWsAux, hd]
        rw [hrw, hrest.1]
    · intro hhead
      have hd : isJsWs d = false := hhead d List.head?_cons
      have hrw : collapseWsAux true (d :: rest) = d :: collapseWsAux false rest := by
        simp [collapseWsAux, hd]
      rw [hrw, hrest.1]

theorem head_dropWhile {p : Char → Bool} {c : Char} :
    ∀ l : List Char, (l.dropWhile p).head? = some c → p c = false := by
  intro l
  induction l with
  | nil => intro h; simp at h
  | cons d rest ih =>
    intro h
    by_cases hd : p d = true
    · rw [List.dropWhile_cons, if_pos hd] at h
      exact ih h
    · rw [List.dropWhile_cons, if_neg hd, List.head?_cons, Option.some.injEq] at h
      rw [← h]
      simpa using hd

theorem dropWhile_fix {p : Char → Bool} {l : List Char}
    (h : ∀ c, l.head? = some c → p c = false) : l.dropWhile p = l := by
  cases l with
  | nil => rfl
  | cons d rest =>
    rw [List.dropWhile_cons, if_neg]
    simp [h d List.head?_cons]

theorem rdropWs_isPre (l : List Char) : rdropWs l <+: l := by
  rw [← List.reverse_suffix, rdropWs, List.reverse_reverse]
  exact List.dropWhile_suffix isJsWs

theorem head?_of_isPre {α : Type} {x m : List α} {c : α} (h : x <+: m)
    (hc : x.head? = some c) : m.head? = some c := by
  obtain ⟨t, rfl⟩ := h
  cases x with
  | nil => simp at hc
  | cons d rest => simpa using hc

theorem mem_jsTrim {c : Char} {l : List Char} (h : c ∈ jsTrim l) : c ∈ l := by
  have h1 : c ∈ (l.dropWhile isJsWs).reverse.dropWhile isJsWs := by
    simpa [jsTrim, rdropWs] using h
  have h2 : c ∈ (l.dropWhile isJsWs).reverse :=
    ((List.dropWhile_sublist isJsWs).mem) h1
  have h3 : c ∈ l.dropWhile isJsWs := List.mem_reverse.mp h2
  exact ((List.dropWhile_sublist isJsWs).mem) h3

theorem head_jsTrim {c : Char} {l : List Char} (h : (jsTrim l).head? = some c) :
    isJsWs c = false := by
  unfold jsTrim at h
  have h1 : (l.dropWhile isJsWs).head? = some c :=
    head?_of_isPre (rdropWs_isPre (l.dropWhile isJsWs)) h
  exact head_dropWhile l h1

theorem getLast_jsTrim {c : Char} {l : List Char}
    (h : (jsTrim l).getLast? = some c) : isJsWs c = false := by
  have h1 : ((l.dropWhile isJsWs).reverse.dropWhile isJsWs).head? = some c := by
    rw [← List.getLast?_reverse]
    simpa [jsTrim, rdropWs] using h
  exact head_dropWhile _ h1

theorem jsTrim_fix {l : List Char}
    (hhead : ∀ c, l.head? = some c → isJsWs c = false)
    (hlast : ∀ c, l.getLast? = some c → isJsWs c = false) : jsTrim l = l := by
  have h1 : l.dropWhile isJsWs = l := dropWhile_fix hhead
  have h2 : l.reverse.dropWhile isJsWs = l.reverse := by
    apply dropWhile_fix
    intro c hc
    rw [List.head?_reverse] at hc
    exact hlast c hc
  rw [jsTrim, h1, rdropWs, h2, List.reverse_reverse]

theorem mem_processChars_allowed {c : Char} {l : List Char}
    (h : c ∈ processChars l) : isAllowedChar c = true :=
  (List.mem_filter.mp (by simpa [processChars, removeDisallowed] using h)).2

theorem processChars_eq_collapse_of_allowed {l : List Char}
    (hall : ∀ c ∈ l, isAllowedChar c = true) :
    processChars l = collapseWs (jsTrim l) := by
  unfold processChars removeDisallowed
  rw [List.filter_eq_self]
  intro a ha
  rcases mem_collapseWsAux (jsTrim l) false (by simpa [collapseWs] using ha) with h' | h'
  · exact hall a (mem_jsTrim h')
  · rw [h']; decide

theorem canonical_processChars_of_allowed {l : List Char}
    (hall : ∀ c ∈ l, isAllowedChar c = true) :
    canonicalChars (processChars l) := by
  rw [processChars_eq_collapse_of_allowed hall]
  refine ⟨?_, ?_, ?_, ?_, ?_⟩
  · intro c hc
    rcases mem_collapseWsAux (jsTrim l) false (by simpa [collapseWs] using hc) with h' | h'
    · exact hall c (mem_jsTrim h')
    · rw [h']; decide
  · intro c hc hws
    exact ws_mem_collapseWsAux (jsTrim l) false (by simpa [collapseWs] using hc) hws
  · exact chain_collapseWsAux (jsTrim l) false
  · exact head_collapseWs (fun c hc => head_jsTrim hc)
  · intro c hc
    rcases hj : (jsTrim l).getLast? with _ | c₀
    · have hnil : jsTrim l = [] := List.getLast?_eq_none_iff.mp hj
      rw [hnil] at hc
      simp [collapseWs, collapseWsAux] at hc
    · have hc₀ : isJsWs c₀ = false := getLast_jsTrim hj
      obtain ⟨c₁, h₁, h₁ws⟩ := getLast_collapseWsAux (jsTrim l) false hj hc₀
      rw [collapseWs, h₁, Option.some.injEq] at hc
      exact hc ▸ h₁ws

theorem processChars_fix {l : List Char} (h : canonicalChars l) :
    processChars l = l := by
  obtain ⟨hall, hnorm, hchain, hhead, hlast⟩ := h
  have ht : jsTrim l = l := jsTrim_fix hhead hlast
  have hcol : collapseWs l = l := (collapseWsAux_fix l hnorm hchain).1
  rw [processChars, ht]
  rw [show collapseWs l = l from hcol]
  rw [removeDisallowed, List.filter_eq_self]
  exact hall

theorem canonical_data_of_double {s : String} :
    canonicalChars (processContent (.str (processContent (.str s)))).data := by
  by_cases hs : s = ""
  · subst hs
    simp only [processContent, if_pos rfl]
    exact ⟨by simp, by simp, List.chain'_nil, by simp, by simp⟩
  · have h1 : processContent (.str s) = ⟨processChars s.data⟩ := by
      simp only [processContent, if_neg hs]
    rw [h1]
    by_cases h2 : (⟨processChars s.data⟩ : String) = ""
    · rw [h2]
      simp only [processContent, if_pos rfl]
      exact ⟨by simp, by simp, List.chain'_nil, by simp, by simp⟩
    · simp only [processContent, if_neg h2]
      exact canonical_processChars_of_allowed (fun c hc => mem_processChars_allowed hc)

theorem processContent_fix_of_canonical {s : String}
    (h : canonicalChars s.data) : processContent (.str s) = s := by
  by_cases hs : s = ""
  · rw [hs]; rfl
  · simp only [processContent, if_neg hs]
    rw [processChars_fix h]

/-- Claim C3, counterexample: the Normalizer is not idempotent as claimed.
On the input `"a @ b"` one application removes the `@` and leaves the two
spaces around it adjacent, yielding `"a  b"`, while a second application
collapses them, yielding `"a b"`. -/
theorem claim_C3_counterexample :
    processContent (.str (processContent (.str "a @ b"))) ≠
      processContent (.str "a @ b") ∧
    processContent (.str "a @ b") = "a  b" ∧
    processContent (.str (processContent (.str "a @ b"))) = "a b" := by
  refine ⟨?_, by decide, by decide⟩
  decide

/-- Claim C3, amended: the Normalizer is idempotent after two
applications; removing disallowed characters can expose new whitespace
runs or leading/trailing whitespace, so a single application need not be a
fixed point, but a second application always is. -/
theorem claim_C3_amended (s : String) :
    processContent (.str (processContent (.str (processContent (.str s))))) =
      processContent (.str (processContent (.str s))) :=
  processContent_fix_of_canonical canonical_data_of_double

/-- Claim C8: `processContent` maps a non-string and the empty string to
the empty string without throwing; on any string it is exactly the
trim / collapse-whitespace-runs / remove-disallowed-characters chain, in
that order, and consequently every character of its output lies in the
allowed set. -/
theorem claim_C8_normalizer_behavior :
    processContent .nonString = "" ∧
    processContent (.str "") = "" ∧
    (∀ s : String, processContent (.str s) =
      ⟨removeDisallowed (collapseWs (jsTrim s.data))⟩) ∧
    (∀ s : String, ∀ c ∈ (processContent (.str s)).data, isAllowedChar c = true) := by
  refine ⟨rfl, rfl, ?_, ?_⟩
  · intro s
    by_cases hs : s = ""
    · subst hs; rfl
    · simp only [processContent, if_neg hs]; rfl
  · intro s c hc
    by_cases hs : s = ""
    · subst hs; simp [processContent] at hc
    · simp only [processContent, if_neg hs] at hc
      exact mem_processChars_allowed hc

/-- Claim C8, witness: the theorem applied to the concrete input
`"Hello"` and its first character. -/
theorem claim_C8_witness : isAllowedChar 'H' = true :=
  claim_C8_normalizer_behavior.2.2.2 "Hello" 'H' (by decide)

/-- Claim C10: a successful answer of the answering path is exactly the
Normalizer applied to the completion collaborator's output, so every
character of the user-visible synthesized answer lies in the allowed set
(word characters, whitespace, and the seven kept punctuation marks). -/
theorem claim_C10_answer_normalized (docs : List String)
    (llm : String → Except QueryError String) (q content : String)
    (h : llm (buildPrompt (contextBlock docs) (processContent (.str q))) =
      .ok content) :
    queryPDF (some ()) docs llm q = .ok (processContent (.str content)) ∧
    ∀ c ∈ (processContent (.str content)).data, isAllowedChar c = true := by
  constructor
  · simp only [queryPDF, h]
  · intro c hc
    by_cases hcontent : content = ""
    · subst hcontent; simp [processContent] at hc
    · simp only [processContent, if_neg hcontent] at hc
      exact mem_processChars_allowed hc

/-- Claim C10, witness: the theorem applied to a completion collaborator
that answers `"Hello"` on every prompt. -/
theorem claim_C10_witness :
    queryPDF (some ()) [] (fun p => Except.ok "Hello") "x" = .ok "Hello" ∧
    isAllowedChar 'H' = true := by
  have h := claim_C10_answer_normalized [] (fun p => Except.ok "Hello") "x" "Hello" rfl
  exact ⟨by rw [h.1, show processContent (.str "Hello") = "Hello" from by decide],
    h.2 'H' (by decide)⟩

theorem containsSub_of_infix {pat l : List Char} (h : pat <:+: l) :
    containsSub pat l = true := by
  obtain ⟨s, t, rfl⟩ := h
  induction s with
  | nil =>
    rw [List.nil_append]
    cases hpt : pat ++ t with
    | nil =>
      obtain ⟨hp, ht⟩ := List.append_eq_nil.mp hpt
      rw [hp]
      rfl
    | cons c cs =>
      have hpre : pat.isPrefixOf (c :: cs) = true := by
        rw [← hpt]
        exact List.isPrefixOf_iff_prefix.mpr ⟨t, rfl⟩
      rw [show containsSub pat (c :: cs) =
        (pat.isPrefixOf (c :: cs) || containsSub pat cs) from rfl]
      rw [hpre, Bool.true_or]
  | cons c s' ih =>
    simp only [List.cons_append]
    rw [show containsSub pat (c :: (s' ++ pat ++ t)) =
      (pat.isPrefixOf (c :: (s' ++ pat ++ t)) || containsSub pat (s' ++ pat ++ t)) from rfl]
    rw [ih, Bool.or_true]

/-- Claim C1: in the answering path, when the synthesized answer contains
the fixed insufficient-information marker, the fallback handler emits the
fixed contact-request message and stores the `awaiting_user_info` context
with lifespan 2 and this turn's query verbatim, leaving the session in
`AwaitingContactInfo` with remainingTurns 2; otherwise it emits the
synthesized answer, stores no context, and the session stays in
`Answering`. -/
theorem claim_C1_fallback_transition (userQuery answer : String) :
    (strIncludes answer insufficientInfoMarker = true →
      handleFallbackIntent userQuery (.ok answer) =
        { reply := contactRequestMessage,
          setContexts := [{ name := "awaiting_user_info", lifespan := 2,
                            original_query := some userQuery }] } ∧
      stateAfterTurn (handleFallbackIntent userQuery (.ok answer)) =
        .awaitingContactInfo userQuery 2) ∧
    (strIncludes answer insufficientInfoMarker = false →
      handleFallbackIntent userQuery (.ok answer) =
        { reply := answer, setContexts := [] } ∧
      stateAfterTurn (handleFallbackIntent userQuery (.ok answer)) =
        .answering) := by
  constructor
  · intro h
    have hout : handleFallbackIntent userQuery (.ok answer) =
        { reply := contactRequestMessage,
          setContexts := [{ name := "awaiting_user_info", lifespan := 2,
                            original_query := some userQuery }] } := by
      simp [handleFallbackIntent, h]
    refine ⟨hout, ?_⟩
    rw [hout]
    simp [stateAfterTurn, getContext, List.find?]
  · intro h
    have hout : handleFallbackIntent userQuery (.ok answer) =
        { reply := answer, setContexts := [] } := by
      simp [handleFallbackIntent, h]
    refine ⟨hout, ?_⟩
    rw [hout]
    simp [stateAfterTurn, getContext, List.find?]

/-- Claim C1, witness: the theorem applied to an answer that is exactly
the refusal sentence (marker present) and to an ordinary answer (marker
absent). -/
theorem claim_C1_witness :
    stateAfterTurn (handleFallbackIntent "what is x?" (.ok refusalSentence)) =
      .awaitingContactInfo "what is x?" 2 ∧
    (handleFallbackIntent "what is x?" (.ok refusalSentence)).reply =
      contactRequestMessage ∧
    stateAfterTurn (handleFallbackIntent "what is x?" (.ok "Office hours are 9-5.")) =
      .answering ∧
    (handleFallbackIntent "what is x?" (.ok "Office hours are 9-5.")).reply =
      "Office hours are 9-5." := by
  have h1 := (claim_C1_fallback_transition "what is x?" refusalSentence).1 (by decide)
  have h2 := (claim_C1_fallback_transition "what is x?" "Office hours are 9-5.").2
    (by decide)
  exact ⟨h1.2, by rw [h1.1], h2.2, by rw [h2.1]⟩

/-- Claim C2: a contact-info-collection turn arriving in
`AwaitingContactInfo` builds the escalation record from the stored
original query and the current timestamp, hands it to the recorder, and
transitions back to `Answering` with the context cleared whatever the
recorder outcome; success yields the fixed acknowledgement and failure the
fixed apology, and a recorder failure is absorbed by the handler (the turn
still produces a normal reply and the same transition) rather than
rethrown. -/
theorem claim_C2_userinfo_turn (q : String) (n : Nat) (nm email ts : String)
    (outcome : Except SheetDBError Unit) :
    (userInfoTurn (.awaitingContactInfo q n) nm email ts outcome).1 =
      .answering ∧
    (userInfoTurn (.awaitingContactInfo q n) nm email ts outcome).2.1.setContexts =
      [] ∧
    (q ≠ "" →
      (userInfoTurn (.awaitingContactInfo q n) nm email ts outcome).2.2 =
        { name := nm, email := email, query := q, timestamp := ts }) ∧
    (outcome = .ok () →
      (userInfoTurn (.awaitingContactInfo q n) nm email ts outcome).2.1.reply =
        ackMessage) ∧
    (∀ e, outcome = .error e →
      (userInfoTurn (.awaitingContactInfo q n) nm email ts outcome).2.1.reply =
        saveErrorMessage) := by
  have hstored : storedOriginalQuery (contextsOfState (.awaitingContactInfo q n)) =
      if q = "" then "N/A" else q := by
    simp [storedOriginalQuery, contextsOfState, getContext, List.find?]
  cases outcome with
  | ok u =>
    cases u
    refine ⟨?_, ?_, ?_, ?_, ?_⟩
    · simp [userInfoTurn, handleUserInfoIntent, addUnresolvedQuery, stateAfterTurn,
        getContext, List.find?]
    · simp [userInfoTurn, handleUserInfoIntent, addUnresolvedQuery]
    · intro hq
      simp [userInfoTurn, handleUserInfoIntent, addUnresolvedQuery, hstored, hq]
    · intro _
      simp [userInfoTurn, handleUserInfoIntent, addUnresolvedQuery]
    · intro e he
      exact absurd he (by simp)
  | error e =>
    refine ⟨?_, ?_, ?_, ?_, ?_⟩
    · simp [userInfoTurn, handleUserInfoIntent, addUnresolvedQuery, stateAfterTurn,
        getContext, List.find?]
    · simp [userInfoTurn, handleUserInfoIntent, addUnresolvedQuery]
    · intro hq
      simp [userInfoTurn, handleUserInfoIntent, addUnresolvedQuery, hstored, hq]
    · intro hcontra
      exact absurd hcontra (by simp)
    · intro e' _
      simp [userInfoTurn, handleUserInfoIntent, addUnresolvedQuery]

/-- Claim C2, witness: the theorem applied with stored query
`"refund policy"`, both on a successful recorder outcome and on a failed
one. -/
theorem claim_C2_witness :
    (userInfoTurn (.awaitingContactInfo "refund policy" 2) "Ana" "ana@x.com"
        "2024-01-01T00:00:00.000Z" (.ok ())).1 = .answering ∧
    (userInfoTurn (.awaitingContactInfo "refund policy" 2) "Ana" "ana@x.com"
        "2024-01-01T00:00:00.000Z" (.ok ())).2.2 =
      { name := "Ana", email := "ana@x.com", query := "refund policy",
        timestamp := "2024-01-01T00:00:00.000Z" } ∧
    (userInfoTurn (.awaitingContactInfo "refund policy" 2) "Ana" "ana@x.com"
        "2024-01-01T00:00:00.000Z" (.ok ())).2.1.reply = ackMessage ∧
    (userInfoTurn (.awaitingContactInfo "refund policy" 2) "Ana" "ana@x.com"
        "2024-01-01T00:00:00.000Z" (.error .clientError)).1 = .answering ∧
    (userInfoTurn (.awaitingContactInfo "refund policy" 2) "Ana" "ana@x.com"
        "2024-01-01T00:00:00.000Z" (.error .clientError)).2.1.reply =
      saveErrorMessage := by
  have hok := claim_C2_userinfo_turn "refund policy" 2 "Ana" "ana@x.com"
    "2024-01-01T00:00:00.000Z" (.ok ())
  have herr := claim_C2_userinfo_turn "refund policy" 2 "Ana" "ana@x.com"
    "2024-01-01T00:00:00.000Z" (.error .clientError)
  exact ⟨hok.1, hok.2.2.1 (by decide), hok.2.2.2.1 rfl, herr.1,
    herr.2.2.2.2 .clientError rfl⟩

/-- Claim C9: when no `awaiting_user_info` context is stored, or the
stored context lacks the `original_query` parameter, the user-info handler
still builds the escalation record, and its query field is the literal
string `"N/A"`. -/
theorem claim_C9_missing_context (nm email ts : String)
    (contexts : List DialogflowContext) (outcome : Except SheetDBError Unit)
    (h : getContext contexts "awaiting_user_info" = none ∨
      ∃ c, getContext contexts "awaiting_user_info" = some c ∧
        c.original_query = none) :
    (handleUserInfoIntent nm email contexts ts outcome).2 =
      { name := nm, email := email, query := "N/A", timestamp := ts } := by
  have hstored : storedOriginalQuery contexts = "N/A" := by
    rcases h with h | ⟨c, hc, hq⟩
    · simp [storedOriginalQuery, h]
    · simp [storedOriginalQuery, hc, hq]
  cases outcome <;> simp [handleUserInfoIntent, addUnresolvedQuery, hstored]

/-- Claim C9, witness: the theorem applied to an empty context list. -/
theorem claim_C9_witness :
    (handleUserInfoIntent "Ana" "ana@x.com" [] "t1" (.ok ())).2 =
      { name := "Ana", email := "ana@x.com", query := "N/A", timestamp := "t1" } :=
  claim_C9_missing_context "Ana" "ana@x.com" "t1" [] (.ok ())
    (Or.inl (by simp [getContext]))

/-- Claim C4: before the vector store is built, every retrieval request
fails fast with the not-loaded error — never a successful (partial or
empty) answer — and the caller surfaces it as a degraded apology, not as
the ordinary insufficient-information reply; moreover the webhook route
answers 503 while either service handle is uninitialized, before any
handler runs. -/
theorem claim_C4_not_ready (docs : List String)
    (llm : String → Except QueryError String) (q : String) :
    queryPDF none docs llm q = .error .notLoaded ∧
    (∀ ans, queryPDF none docs llm q ≠ .ok ans) ∧
    (handleFallbackIntent q (queryPDF none docs llm q)).reply =
      queryErrorMessage ∧
    strIncludes queryErrorMessage insufficientInfoMarker = false ∧
    (∀ (sheetdb : Option Unit) (h : Unit → AgentTurnOutput),
      dialogflowWebhookGate none sheetdb h = .serviceUnavailable) ∧
    (∀ (pdfc : Option Unit) (h : Unit → AgentTurnOutput),
      dialogflowWebhookGate pdfc none h = .serviceUnavailable) := by
  refine ⟨rfl, ?_, rfl, by decide, ?_, ?_⟩
  · intro ans hcontra
    simp [queryPDF] at hcontra
  · intro sheetdb h
    cases sheetdb <;> rfl
  · intro pdfc h
    cases pdfc <;> rfl

/-- Claim C4, witness: the theorem applied to a concrete query against the
unbuilt store, including the no-success conjunct at a concrete answer. -/
theorem claim_C4_witness :
    queryPDF none [] (fun p => Except.ok "anything") "hours?" =
      .error .notLoaded ∧
    queryPDF none [] (fun p => Except.ok "anything") "hours?" ≠ .ok "anything" ∧
    dialogflowWebhookGate none (some ()) (fun u => handleWelcomeIntent) =
      .serviceUnavailable := by
  have h := claim_C4_not_ready [] (fun p => Except.ok "anything") "hours?"
  exact ⟨h.1, h.2.1 "anything", h.2.2.2.2.1 (some ()) (fun u => handleWelcomeIntent)⟩

/-- Claim C5: the assembled prompt interpolates the context block — the
retrieved chunks' normalized texts joined by a blank line, in retrieval
order — and the processed query into the fixed template, and contains the
fixed refusal sentence and the fixed suggestion sentence verbatim; any
answer echoing the refusal sentence verbatim is caught by the state
machine's marker check. -/
theorem claim_C5_prompt_assembly (docs : List String) (q : String) :
    buildPrompt (contextBlock docs) q =
      promptPart1 ++
        String.intercalate "\n\n" (docs.map (fun d => processContent (.str d))) ++
        promptPart2 ++ q ++ promptPart3 ++ refusalSentence ++ promptPart4 ++
        suggestionSentence ++ promptPart5 ∧
    refusalSentence.data <:+: (buildPrompt (contextBlock docs) q).data ∧
    suggestionSentence.data <:+: (buildPrompt (contextBlock docs) q).data ∧
    (∀ answer : String, refusalSentence.data <:+: answer.data →
      strIncludes answer insufficientInfoMarker = true) := by
  refine ⟨rfl, ?_, ?_, ?_⟩
  · refine ⟨(promptPart1 ++ contextBlock docs ++ promptPart2 ++ q ++
      promptPart3).data, (promptPart4 ++ suggestionSentence ++ promptPart5).data, ?_⟩
    simp only [buildPrompt, String.data_append, List.append_assoc]
  · refine ⟨(promptPart1 ++ contextBlock docs ++ promptPart2 ++ q ++
      promptPart3 ++ refusalSentence ++ promptPart4).data, promptPart5.data, ?_⟩
    simp only [buildPrompt, String.data_append, List.append_assoc]
  · intro answer hinf
    have hm : insufficientInfoMarker.data <+: refusalSentence.data :=
      List.isPrefixOf_iff_prefix.mp (by decide)
    exact containsSub_of_infix (hm.isInfix.trans hinf)

/-- Claim C5, witness: the containment conjuncts instantiated at an empty
retrieval result, and the marker-check conjunct at an answer that is
exactly the refusal sentence. -/
theorem claim_C5_witness :
    refusalSentence.data <:+: (buildPrompt (contextBlock []) "q").data ∧
    suggestionSentence.data <:+: (buildPrompt (contextBlock []) "q").data ∧
    strIncludes refusalSentence insufficientInfoMarker = true := by
  have h := claim_C5_prompt_assembly [] "q"
  exact ⟨h.2.1, h.2.2.1, h.2.2.2 refusalSentence ⟨[], [], by simp⟩⟩

instance {σ : Type} [LinearOrder σ] : IsAntisymm (Chunk × σ) simLt where
  antisymm a b hab hba := by
    exfalso
    rcases hab with hab | ⟨hab, hab'⟩
    · rcases hba with hba | ⟨hba, _⟩
      · exact lt_irrefl _ (lt_trans hab hba)
      · exact absurd hab (hba ▸ lt_irrefl _)
    · rcases hba with hba | ⟨_, hba'⟩
      · exact absurd hba (hab ▸ lt_irrefl _)
      · exact Nat.lt_irrefl _ (Nat.lt_trans hab' hba')

theorem pairwise_simLt_of_simLe {σ : Type} [LinearOrder σ]
    {l : List (Chunk × σ)} (hle : l.Pairwise simLe)
    (hnd : (l.map (fun e => e.1.id)).Nodup) : l.Pairwise simLt := by
  have hne : l.Pairwise (fun a b => a.1.id ≠ b.1.id) := List.pairwise_map.mp hnd
  refine (hle.and hne).imp ?_
  intro a b h
  rcases h.1 with h' | ⟨h', h''⟩
  · exact Or.inl h'
  · exact Or.inr ⟨h', Nat.lt_of_le_of_ne h'' h.2⟩

theorem nodup_ids_insertionSort {σ : Type} [LinearOrder σ]
    {index : List (Chunk × σ)}
    (hnodup : (index.map (fun e => e.1.id)).Nodup) :
    ((List.insertionSort simLe index).map (fun e => e.1.id)).Nodup :=
  (((List.perm_insertionSort simLe index).map (fun e => e.1.id)).symm).nodup hnodup

/-- Claim C6: against an index of n score-tagged chunks with pairwise
distinct ids, the query returns exactly min(k, n) results, in strictly
descending similarity order with ties broken by ascending chunk id; k
defaults to 4; and the result is determined by the index contents alone —
any strictly ordered arrangement of the same index truncates to the same
result, so repeating the query (or rebuilding from the same chunks and
scores) yields an identical retrieval result. -/
theorem claim_C6_vector_query {σ : Type} [LinearOrder σ]
    (index : List (Chunk × σ)) (k : Nat)
    (hnodup : (index.map (fun e => e.1.id)).Nodup) :
    (vquery index k).length = min k index.length ∧
    (vquery index k).Pairwise simLt ∧
    vqueryDefault index = vquery index 4 ∧
    (∀ out : List (Chunk × σ), out.Perm index → out.Pairwise simLt →
      out.take k = vquery index k) := by
  have hsorted : (List.insertionSort simLe index).Pairwise simLe :=
    List.sorted_insertionSort simLe index
  have hperm : (List.insertionSort simLe index).Perm index :=
    List.perm_insertionSort simLe index
  have hsortedLt : (List.insertionSort simLe index).Pairwise simLt :=
    pairwise_simLt_of_simLe hsorted (nodup_ids_insertionSort hnodup)
  refine ⟨?_, ?_, rfl, ?_⟩
  · rw [vquery, List.length_take, hperm.length_eq]
  · exact List.Pairwise.sublist (List.take_sublist k _) hsortedLt
  · intro out hout houtLt
    rw [vquery]
    congr 1
    exact List.eq_of_perm_of_sorted (hout.trans hperm.symm) houtLt hsortedLt

/-- Claim C6, witness: the theorem applied to a concrete three-chunk index
with integer scores containing a tie, requesting two results. -/
theorem claim_C6_witness :
    (vquery [(({ id := 0, text := "a", sourceOffset := 0 } : Chunk), (5 : Int)),
      (({ id := 1, text := "b", sourceOffset := 10 } : Chunk), (7 : Int)),
      (({ id := 2, text := "c", sourceOffset := 20 } : Chunk), (5 : Int))]
      2).length = min 2 3 ∧
    (vquery [(({ id := 0, text := "a", sourceOffset := 0 } : Chunk), (5 : Int)),
      (({ id := 1, text := "b", sourceOffset := 10 } : Chunk), (7 : Int)),
      (({ id := 2, text := "c", sourceOffset := 20 } : Chunk), (5 : Int))]
      2).Pairwise simLt := by
  have h := claim_C6_vector_query
    [(({ id := 0, text := "a", sourceOffset := 0 } : Chunk), (5 : Int)),
      (({ id := 1, text := "b", sourceOffset := 10 } : Chunk), (7 : Int)),
      (({ id := 2, text := "c", sourceOffset := 20 } : Chunk), (5 : Int))]
    2 (by decide)
  exact ⟨h.1, h.2.1⟩

